import Mathlib

/-!
Verification of the secret-sync reconciler core and the keyvault CSI driver
registration of `helayoty/secrets-store-csi-driver`.

The reconciler operations (`secretExists`, `createK8sSecret`,
`patchSecretWithOwnerRef`, `generateEvent`) are visible in the repository only
through their controller tests; the operations themselves are modelled from the
specification (spec sections 3, 4.1-4.4, 7).  The keyvault driver registration
is embedded directly from `pkg/keyvault/keyvault.go`.
-/

namespace SecretsStore

/-- Modelled from the spec: an OwnerReference (spec section 3) carries
(apiVersion, kind, name, UID, controller-flag, block-owner-deletion-flag);
uniqueness is judged by the (apiVersion, kind, name) triple. -/
structure OwnerReference where
  apiVersion : String
  kind : String
  name : String
  uid : String
  controller : Bool
  blockOwnerDeletion : Bool
deriving DecidableEq

/-- Modelled from the spec: a Secret (spec section 3) is an opaque mapping from
string keys to byte-array values, plus a type tag, a label set, and a list of
owner references, addressed by (name, namespace). -/
structure Secret where
  name : String
  nsp : String
  labels : List (String × String)
  secretData : List (String × List Nat)
  secretType : String
  ownerRefs : List OwnerReference
deriving DecidableEq

/-- Modelled from the spec: the error kinds of section 7 — NotFound, Conflict,
AlreadyExists (the benign create race of section 4.2), and other failures
(connectivity, permission, malformed). -/
inductive KError where
  | notFound
  | conflict
  | alreadyExists
  | other (msg : String)
deriving DecidableEq

/-- The cluster object store restricted to Secrets: a list of Secret records,
looked up by exact (name, namespace) key (spec section 3, SecretIdentity). -/
abbrev Store := List Secret

/-- Exact-key lookup of a Secret by (name, namespace). -/
def findSecret (store : Store) (name nsp : String) : Option Secret :=
  store.find? (fun s => s.name == name && s.nsp == nsp)

/-- Modelled from the spec: the object store client's get-by-key (spec
section 6): returns the record or a NotFound error. -/
def storeGet (store : Store) (name nsp : String) : Except KError Secret :=
  match findSecret store name nsp with
  | some s => .ok s
  | none => .error .notFound

/-- Modelled from the spec: the classification step of the existence check
(spec section 4.1), applied to the outcome of a retrieval: a found object
yields (true, no error), a NotFound outcome yields (false, no error), and any
other retrieval failure is surfaced as an error. -/
def secretExistsFromGet (r : Except KError Secret) : Except KError Bool :=
  match r with
  | .ok _ => .ok true
  | .error .notFound => .ok false
  | .error e => .error e

/-- Modelled from the spec: `secretExists` (spec section 4.1) — look the Secret
up by exact key and classify the outcome. -/
def secretExists (store : Store) (name nsp : String) : Except KError Bool :=
  secretExistsFromGet (storeGet store name nsp)

/-- Construct a fresh Secret from the supplied name, namespace, data, labels
and type (spec section 4.2: the created object carries exactly these, and no
owner references yet — ownership is handled separately). -/
def mkSecret (name nsp : String) (dataP : List (String × List Nat))
    (labels : List (String × String)) (ty : String) : Secret :=
  { name := name, nsp := nsp, labels := labels, secretData := dataP,
    secretType := ty, ownerRefs := [] }

/-- Modelled from the spec: the object store client's create operation (spec
section 6): fails with AlreadyExists when a record with the same key is
present, otherwise persists the new record. -/
def storeCreate (store : Store) (s : Secret) : Except KError Store :=
  match findSecret store s.name s.nsp with
  | some _ => .error .alreadyExists
  | none => .ok (store ++ [s])

/-- Modelled from the spec: `createK8sSecret` (spec section 4.2): given the
already-known existence result `existsFlag` it skips when the Secret is known
to exist; otherwise it constructs and persists a new Secret, treating a
concurrent AlreadyExists outcome as success (benign idempotence) and surfacing
any other persistence failure. -/
def createK8sSecret (store : Store) (existsFlag : Bool) (name nsp : String)
    (dataP : List (String × List Nat)) (labels : List (String × String))
    (ty : String) : Except KError Store :=
  if existsFlag then .ok store
  else
    match storeCreate store (mkSecret name nsp dataP labels ty) with
    | .ok st => .ok st
    | .error .alreadyExists => .ok store
    | .error e => .error e

/-- Modelled from the spec: the existence-check-then-create-or-skip prefix of
one reconcile pass (spec section 2, steps 1-2): the existence check runs first
and its boolean is handed to create-or-skip. -/
def reconcileCreate (store : Store) (name nsp : String)
    (dataP : List (String × List Nat)) (labels : List (String × String))
    (ty : String) : Except KError Store :=
  match secretExists store name nsp with
  | .ok b => createK8sSecret store b name nsp dataP labels ty
  | .error e => .error e

/-- The merge key of the ownership patch (spec section 4.3): two references
denote the same logical owner when their (apiVersion, kind, name) triples
agree. -/
def sameOwnerKey (a b : OwnerReference) : Bool :=
  a.apiVersion == b.apiVersion && a.kind == b.kind && a.name == b.name

/-- Whether a reference matching the candidate's merge key is already
present. -/
def hasOwnerRef (refs : List OwnerReference) (c : OwnerReference) : Bool :=
  refs.any (fun r => sameOwnerKey r c)

/-- Modelled from the spec: the owner-reference merge of the ownership patch
(spec section 4.3): if an entry matching the candidate's (apiVersion, kind,
name) already exists, the list is left entirely unchanged (its UID and flags
are not bumped); otherwise the candidate is inserted, preserving all existing
references. -/
def mergeOwnerRefs (refs : List OwnerReference) (c : OwnerReference) :
    List OwnerReference :=
  if hasOwnerRef refs c then refs else refs ++ [c]

/-- Boolean check that a reference list carries no two entries with the same
(apiVersion, kind, name) triple. -/
def noDupOwnerKeys : List OwnerReference → Bool
  | [] => true
  | r :: rest => !(rest.any (fun x => sameOwnerKey r x)) && noDupOwnerKeys rest

/-- Modelled from the spec: one conflict-free body of the ownership patch
(spec sections 4.3 and 8): compute the merged list and — only if it differs
from the current one — produce the updated Secret together with the flag that
an update write was issued; no other field of the Secret is touched. -/
def patchSecretPure (s : Secret) (c : OwnerReference) : Secret × Bool :=
  let merged := mergeOwnerRefs s.ownerRefs c
  if merged = s.ownerRefs then (s, false)
  else ({ s with ownerRefs := merged }, true)

/-- Modelled from the spec: a StatusObject (spec section 3): the per-pod-mount
status record that is to own the Secret; read-only input to the reconciler. -/
structure StatusObject where
  name : String
  nsp : String
  uid : String
deriving DecidableEq

/-- Modelled from the spec: the owner candidate derived from a StatusObject
(spec sections 2-3): a reference to the status resource, so that the Secret is
garbage-collected with it. -/
def ownerRefForStatus (so : StatusObject) : OwnerReference :=
  { apiVersion := "secrets-store.csi.x-k8s.io/v1alpha1",
    kind := "SecretProviderClassPodStatus",
    name := so.name, uid := so.uid,
    controller := true, blockOwnerDeletion := true }

/-- Modelled from the spec: the outcome of one conditional-update write (spec
section 4.3): success, an optimistic-concurrency conflict, or a non-conflict
failure. -/
inductive WriteResult where
  | succeeded
  | conflict
  | failed (e : KError)
deriving DecidableEq

/-- The small fixed bound on patch attempts (spec section 7: bounded retry on
conflict). -/
def maxPatchAttempts : Nat := 5

/-- Modelled from the spec: the read-merge-conditionally-write loop of the
ownership patch (spec section 4.3).  Each round supplies the owner-reference
list read from the freshly re-read Secret together with the outcome the store
would report for a write in that round.  If the merged list equals the current
one no write is issued; a successful write returns the merged list; a conflict
causes a retry that re-reads and recomputes on the next round; a non-conflict
failure is surfaced as fatal; exhausting the rounds surfaces the conflict as a
retryable failure. -/
def patchLoop (c : OwnerReference) :
    List (List OwnerReference × WriteResult) →
    Except KError (Option (List OwnerReference))
  | [] => .error .conflict
  | (refs, w) :: rest =>
    let merged := mergeOwnerRefs refs c
    if merged = refs then .ok none
    else
      match w with
      | .succeeded => .ok (some merged)
      | .conflict => patchLoop c rest
      | .failed e => .error e

/-- Modelled from the spec: `patchSecretWithOwnerRef` over an environment of
read/write rounds, bounded by `maxPatchAttempts` (spec sections 4.3 and 7). -/
def patchSecretWithOwnerRef (c : OwnerReference)
    (rounds : List (List OwnerReference × WriteResult)) :
    Except KError (Option (List OwnerReference)) :=
  patchLoop c (rounds.take maxPatchAttempts)

/-- A small concrete store holding the Secret "my-secret" in namespace
"default" with the label set of the controller tests. -/
def sampleStore : Store :=
  [mkSecret "my-secret" "default" [] [("environment", "test")] "Opaque"]

/-- A small concrete StatusObject, as in the controller tests. -/
def sampleStatus : StatusObject :=
  { name := "my-spcps", nsp := "default",
    uid := "72a0ecb8-c6e5-41e1-8da1-25e37ec61b26" }

/-- A Secret that already carries the owner reference for `sampleStatus`. -/
def sampleOwned : Secret :=
  { name := "my-secret", nsp := "default", labels := [("environment", "test")],
    secretData := [], secretType := "Opaque",
    ownerRefs := [ownerRefForStatus sampleStatus] }

/-- Modelled from the spec: an Event record (spec section 3):
(involvedObjectRef, type, reason, message), append-only with no identity
beyond emission order per object. -/
structure EventRecord where
  objName : String
  objNsp : String
  objUid : String
  etype : String
  reason : String
  message : String
deriving DecidableEq

/-- The human-readable rendering of an event on the sink, as the fake recorder
of the controller tests observes it: "type reason message". -/
def renderEvent (e : EventRecord) : String :=
  e.etype ++ " " ++ e.reason ++ " " ++ e.message

/-- Modelled from the spec: `generateEvent` (spec section 4.4): emit exactly
one event record onto the sink, appending it so that call order is preserved
in the underlying event stream. -/
def generateEvent (sink : List EventRecord)
    (objName objNsp objUid : String) (etype reason message : String) :
    List EventRecord :=
  sink ++ [{ objName := objName, objNsp := objNsp, objUid := objUid,
             etype := etype, reason := reason, message := message }]

end SecretsStore

namespace Keyvault

/-- The CSI controller service capability types named in
`pkg/keyvault/keyvault.go` and its `csi` dependency. -/
inductive ControllerServiceCapability where
  | createDeleteVolume
  | publishUnpublishVolume
  | listVolumes
  | getCapacity
  | publishReadonly
  | expandVolume
deriving DecidableEq

/-- The CSI volume-capability access modes of the `csi` dependency. -/
inductive AccessMode where
  | unknown
  | singleNodeWriter
  | singleNodeReaderOnly
  | multiNodeReaderOnly
  | multiNodeSingleWriter
  | multiNodeMultiWriter
deriving DecidableEq

/-- Whether an access mode permits writes. -/
def AccessMode.isWritable : AccessMode → Bool
  | .singleNodeWriter => true
  | .multiNodeSingleWriter => true
  | .multiNodeMultiWriter => true
  | _ => false

/-- The capability-relevant state of a `csicommon.CSIDriver`: its identity plus
the registered controller service capabilities and volume access modes. -/
structure CSIDriver where
  name : String
  version : String
  nodeID : String
  cap : List ControllerServiceCapability
  vc : List AccessMode
deriving DecidableEq

/-- `csicommon.NewCSIDriver`: a fresh driver with no capabilities registered
yet. -/
def newCSIDriver (name version nodeID : String) : CSIDriver :=
  { name := name, version := version, nodeID := nodeID, cap := [], vc := [] }

/-- `csicommon` driver setup: register the given controller service
capabilities. -/
def addControllerServiceCapabilities (d : CSIDriver)
    (cl : List ControllerServiceCapability) : CSIDriver :=
  { d with cap := d.cap ++ cl }

/-- `csicommon` driver setup: register the given volume access modes. -/
def addVolumeCapabilityAccessModes (d : CSIDriver)
    (vl : List AccessMode) : CSIDriver :=
  { d with vc := d.vc ++ vl }

/-- The vendor version constant of `pkg/keyvault/keyvault.go`. -/
def vendorVersion : String := "0.0.2"

/-- The capability-registration effect of `keyvault.Run`
(`pkg/keyvault/keyvault.go`, lines 61-84): initialize the driver, add the
PUBLISH_READONLY controller capability, and add the SINGLE_NODE_READER_ONLY
and MULTI_NODE_READER_ONLY access modes. -/
def keyvaultRun (driverName nodeID : String) : CSIDriver :=
  let d := newCSIDriver driverName vendorVersion nodeID
  let d := addControllerServiceCapabilities d
    [ControllerServiceCapability.publishReadonly]
  let d := addVolumeCapabilityAccessModes d
    [AccessMode.singleNodeReaderOnly, AccessMode.multiNodeReaderOnly]
  d

end Keyvault

namespace SecretsStore

theorem sameOwnerKey_refl (c : OwnerReference) : sameOwnerKey c c = true := by
  simp [sameOwnerKey]

theorem findSecret_append_mk (store : Store) (name nsp : String)
    (dataP : List (String × List Nat)) (labels : List (String × String))
    (ty : String) (h : findSecret store name nsp = none) :
    findSecret (store ++ [mkSecret name nsp dataP labels ty]) name nsp =
      some (mkSecret name nsp dataP labels ty) := by
  unfold findSecret at h ⊢
  rw [List.find?_append, h]
  simp [mkSecret, List.find?]

/-- C4: for every (name, namespace), the existence check returns (true, no
error) when a Secret with that exact key exists and (false, no error) when the
lookup reports not-found; any other retrieval failure is surfaced as an error,
never as absence. -/
theorem c4_secretExists_classification (store : Store) (name nsp : String) :
    (∀ s, findSecret store name nsp = some s →
      secretExists store name nsp = .ok true) ∧
    (findSecret store name nsp = none →
      secretExists store name nsp = .ok false) ∧
    (∀ e : KError, e ≠ .notFound → secretExistsFromGet (.error e) = .error e) := by
  refine ⟨?_, ?_, ?_⟩
  · intro s hs
    simp [secretExists, storeGet, hs, secretExistsFromGet]
  · intro hn
    simp [secretExists, storeGet, hn, secretExistsFromGet]
  · intro e he
    cases e with
    | notFound => exact absurd rfl he
    | conflict => rfl
    | alreadyExists => rfl
    | other m => rfl

theorem c4_witness :
    secretExists sampleStore "my-secret" "default" = .ok true ∧
    secretExists sampleStore "my-secret2" "default" = .ok false ∧
    secretExistsFromGet (.error (.other "boom")) = .error (.other "boom") :=
  ⟨(c4_secretExists_classification sampleStore "my-secret" "default").1 _ rfl,
   (c4_secretExists_classification sampleStore "my-secret2" "default").2.1 rfl,
   (c4_secretExists_classification sampleStore "my-secret2" "default").2.2
     (.other "boom") (by decide)⟩

/-- C5: for every identity whose Secret is absent, create-or-skip succeeds and
persists a new Secret carrying exactly the supplied name, namespace, labels,
type and data payload, and a subsequent existence check returns (true, no
error). -/
theorem c5_create_when_absent (store : Store) (name nsp : String)
    (dataP : List (String × List Nat)) (labels : List (String × String))
    (ty : String) (h : findSecret store name nsp = none) :
    createK8sSecret store false name nsp dataP labels ty =
      .ok (store ++ [mkSecret name nsp dataP labels ty]) ∧
    (mkSecret name nsp dataP labels ty).name = name ∧
    (mkSecret name nsp dataP labels ty).nsp = nsp ∧
    (mkSecret name nsp dataP labels ty).labels = labels ∧
    (mkSecret name nsp dataP labels ty).secretType = ty ∧
    (mkSecret name nsp dataP labels ty).secretData = dataP ∧
    secretExists (store ++ [mkSecret name nsp dataP labels ty]) name nsp =
      .ok true := by
  refine ⟨?_, rfl, rfl, rfl, rfl, rfl, ?_⟩
  · have hsc : storeCreate store (mkSecret name nsp dataP labels ty) =
        .ok (store ++ [mkSecret name nsp dataP labels ty]) := by
      unfold storeCreate
      have e1 : (mkSecret name nsp dataP labels ty).name = name := rfl
      have e2 : (mkSecret name nsp dataP labels ty).nsp = nsp := rfl
      rw [e1, e2, h]
    simp [createK8sSecret, hsc]
  · simp [secretExists, storeGet, findSecret_append_mk store name nsp dataP labels ty h,
      secretExistsFromGet]

theorem c5_witness :
    createK8sSecret sampleStore false "my-secret2" "default" []
        [("environment", "test")] "Opaque" =
      .ok (sampleStore ++
        [mkSecret "my-secret2" "default" [] [("environment", "test")] "Opaque"]) ∧
    secretExists (sampleStore ++
        [mkSecret "my-secret2" "default" [] [("environment", "test")] "Opaque"])
        "my-secret2" "default" = .ok true := by
  have h := c5_create_when_absent sampleStore "my-secret2" "default" []
    [("environment", "test")] "Opaque" rfl
  exact ⟨h.1, h.2.2.2.2.2.2⟩

/-- C7: create-or-skip receives an already-known existence result and decides
from it alone: when the flag reports existence it skips — on every store,
including one where no such Secret is present — and when the flag reports
absence (and none exists) it creates. -/
theorem c7_uses_supplied_existence (store : Store) (name nsp : String)
    (dataP : List (String × List Nat)) (labels : List (String × String))
    (ty : String) :
    createK8sSecret store true name nsp dataP labels ty = .ok store ∧
    (findSecret store name nsp = none →
      createK8sSecret store false name nsp dataP labels ty =
        .ok (store ++ [mkSecret name nsp dataP labels ty])) := by
  constructor
  · simp [createK8sSecret]
  · intro h
    have hsc : storeCreate store (mkSecret name nsp dataP labels ty) =
        .ok (store ++ [mkSecret name nsp dataP labels ty]) := by
      unfold storeCreate
      have e1 : (mkSecret name nsp dataP labels ty).name = name := rfl
      have e2 : (mkSecret name nsp dataP labels ty).nsp = nsp := rfl
      rw [e1, e2, h]
    simp [createK8sSecret, hsc]

theorem c7_witness :
    createK8sSecret ([] : Store) true "my-secret" "default" [] [] "Opaque" =
      .ok ([] : Store) ∧
    createK8sSecret ([] : Store) false "my-secret" "default" [] [] "Opaque" =
      .ok [mkSecret "my-secret" "default" [] [] "Opaque"] := by
  have h := c7_uses_supplied_existence ([] : Store) "my-secret" "default" [] [] "Opaque"
  exact ⟨h.1, by simpa using h.2 rfl⟩

/-- C9: event emission preserves invocation order: two successive emissions for
the same object reference appear on the sink in call order, and they render as
"Warning reason message" followed by "Warning reason2 message2". -/
theorem c9_event_order (sink : List EventRecord)
    (objName objNsp objUid : String) :
    generateEvent
        (generateEvent sink objName objNsp objUid "Warning" "reason" "message")
        objName objNsp objUid "Warning" "reason2" "message2" =
      sink ++
        [{ objName := objName, objNsp := objNsp, objUid := objUid,
           etype := "Warning", reason := "reason", message := "message" },
         { objName := objName, objNsp := objNsp, objUid := objUid,
           etype := "Warning", reason := "reason2", message := "message2" }] ∧
    renderEvent
        { objName := objName, objNsp := objNsp, objUid := objUid,
          etype := "Warning", reason := "reason", message := "message" } =
      "Warning reason message" ∧
    renderEvent
        { objName := objName, objNsp := objNsp, objUid := objUid,
          etype := "Warning", reason := "reason2", message := "message2" } =
      "Warning reason2 message2" := by
  refine ⟨by simp [generateEvent], rfl, rfl⟩

end SecretsStore

namespace Keyvault

/-- C10: `keyvault.Run` registers only read-only capabilities: exactly the
PUBLISH_READONLY controller service capability and exactly the
SINGLE_NODE_READER_ONLY and MULTI_NODE_READER_ONLY volume access modes, so no
writable access mode is advertised. -/
theorem c10_readonly_capabilities (driverName nodeID : String) :
    (keyvaultRun driverName nodeID).cap =
      [ControllerServiceCapability.publishReadonly] ∧
    (keyvaultRun driverName nodeID).vc =
      [AccessMode.singleNodeReaderOnly, AccessMode.multiNodeReaderOnly] ∧
    ((keyvaultRun driverName nodeID).vc.all
      (fun m => !(AccessMode.isWritable m))) = true :=
  ⟨rfl, rfl, rfl⟩

end Keyvault

namespace SecretsStore

theorem patch_noop_of_hasOwnerRef (s : Secret) (c : OwnerReference)
    (h : hasOwnerRef s.ownerRefs c = true) :
    patchSecretPure s c = (s, false) := by
  have hm : mergeOwnerRefs s.ownerRefs c = s.ownerRefs := by
    simp [mergeOwnerRefs, h]
  simp [patchSecretPure, hm]

theorem patchSecretPure_ownerRefs (s : Secret) (c : OwnerReference) :
    (patchSecretPure s c).1.ownerRefs = mergeOwnerRefs s.ownerRefs c := by
  unfold patchSecretPure
  by_cases hm : mergeOwnerRefs s.ownerRefs c = s.ownerRefs
  · simp [hm]
  · simp [hm]

theorem hasOwnerRef_mergeOwnerRefs (refs : List OwnerReference)
    (c : OwnerReference) : hasOwnerRef (mergeOwnerRefs refs c) c = true := by
  unfold mergeOwnerRefs
  by_cases h : hasOwnerRef refs c = true
  · simp [h]
  · have hf : hasOwnerRef refs c = false := by simpa using h
    simp only [hf, Bool.false_eq_true, if_false]
    unfold hasOwnerRef
    rw [List.any_append,
      show ([c].any fun r => sameOwnerKey r c) = true by simp [sameOwnerKey_refl],
      Bool.or_true]

theorem countP_mergeOwnerRefs (refs : List OwnerReference) (c : OwnerReference)
    (h : refs.countP (fun r => sameOwnerKey r c) ≤ 1) :
    (mergeOwnerRefs refs c).countP (fun r => sameOwnerKey r c) = 1 := by
  unfold mergeOwnerRefs
  by_cases hc : hasOwnerRef refs c = true
  · simp only [hc, if_true]
    have hpos : 0 < refs.countP (fun r => sameOwnerKey r c) := by
      rw [List.countP_pos_iff]
      exact List.any_eq_true.mp (by simpa [hasOwnerRef] using hc)
    omega
  · have hf : refs.any (fun r => sameOwnerKey r c) = false := by
      simpa [hasOwnerRef] using hc
    have h0 : refs.countP (fun r => sameOwnerKey r c) = 0 := by
      rw [List.countP_eq_zero]
      exact fun a ha => List.any_eq_false.mp hf a ha
    simp [hc, List.countP_append, h0, List.countP_cons, sameOwnerKey_refl]

theorem noDupOwnerKeys_append_one (refs : List OwnerReference)
    (c : OwnerReference) (h1 : noDupOwnerKeys refs = true)
    (h2 : hasOwnerRef refs c = false) :
    noDupOwnerKeys (refs ++ [c]) = true := by
  induction refs with
  | nil => simp [noDupOwnerKeys]
  | cons r rest ih =>
    rw [show noDupOwnerKeys (r :: rest) =
        (!(rest.any (fun x => sameOwnerKey r x)) && noDupOwnerKeys rest) from rfl,
      Bool.and_eq_true, Bool.not_eq_true'] at h1
    rw [show hasOwnerRef (r :: rest) c =
        (sameOwnerKey r c || hasOwnerRef rest c) from rfl,
      Bool.or_eq_false_iff] at h2
    rw [show (r :: rest) ++ [c] = r :: (rest ++ [c]) from rfl,
      show noDupOwnerKeys (r :: (rest ++ [c])) =
        (!((rest ++ [c]).any (fun x => sameOwnerKey r x)) &&
          noDupOwnerKeys (rest ++ [c])) from rfl,
      Bool.and_eq_true, Bool.not_eq_true']
    constructor
    · rw [List.any_append, Bool.or_eq_false_iff]
      refine ⟨h1.1, ?_⟩
      simp [List.any_cons, List.any_nil, h2.1]
    · exact ih h1.2 h2.2

theorem patchLoop_all_conflict (c : OwnerReference) :
    ∀ l : List (List OwnerReference × WriteResult),
      (∀ p ∈ l, mergeOwnerRefs p.1 c ≠ p.1 ∧ p.2 = WriteResult.conflict) →
      patchLoop c l = .error .conflict
  | [], _ => rfl
  | (refs, w) :: rest, h => by
    have h1 := h (refs, w) (List.mem_cons_self _ _)
    have hrest := patchLoop_all_conflict c rest
      (fun p hp => h p (List.mem_cons_of_mem _ hp))
    have hne : mergeOwnerRefs refs c ≠ refs := h1.1
    have hw : w = WriteResult.conflict := h1.2
    subst hw
    simp [patchLoop, hne, hrest]

/-- C8: the ownership patch issues a write only when the merged owner-reference
list differs from the current one; when an entry matching the candidate's
(apiVersion, kind, name) already exists the Secret is left entirely unchanged
(no UID or flag bump) and no update is issued; and no field of the Secret
other than the owner-reference list is ever modified. -/
theorem c8_patch_frame (s : Secret) (c : OwnerReference) :
    (hasOwnerRef s.ownerRefs c = true → patchSecretPure s c = (s, false)) ∧
    ((patchSecretPure s c).2 = true ↔
      mergeOwnerRefs s.ownerRefs c ≠ s.ownerRefs) ∧
    (patchSecretPure s c).1.name = s.name ∧
    (patchSecretPure s c).1.nsp = s.nsp ∧
    (patchSecretPure s c).1.labels = s.labels ∧
    (patchSecretPure s c).1.secretData = s.secretData ∧
    (patchSecretPure s c).1.secretType = s.secretType := by
  by_cases hm : mergeOwnerRefs s.ownerRefs c = s.ownerRefs
  · exact ⟨fun h => patch_noop_of_hasOwnerRef s c h,
      by simp [patchSecretPure, hm], by simp [patchSecretPure, hm],
      by simp [patchSecretPure, hm], by simp [patchSecretPure, hm],
      by simp [patchSecretPure, hm], by simp [patchSecretPure, hm]⟩
  · refine ⟨fun h => absurd (by simp [mergeOwnerRefs, h]) hm,
      by simp [patchSecretPure, hm], ?_, ?_, ?_, ?_, ?_⟩ <;>
      simp [patchSecretPure, hm]

theorem c8_witness :
    patchSecretPure sampleOwned (ownerRefForStatus sampleStatus) =
      (sampleOwned, false) :=
  (c8_patch_frame sampleOwned (ownerRefForStatus sampleStatus)).1 (by decide)

/-- C1 counterexample: a Secret whose owner-reference list already carries two
entries with the candidate owner's (apiVersion, kind, name) triple keeps both
after the patch, so the result does not have exactly one reference for that
owner. -/
theorem c1_counterexample :
    ¬ ((patchSecretPure
        { name := "my-secret", nsp := "default", labels := [],
          secretData := [], secretType := "Opaque",
          ownerRefs := [ownerRefForStatus sampleStatus,
            { ownerRefForStatus sampleStatus with uid := "other-uid" }] }
        (ownerRefForStatus sampleStatus)).1.ownerRefs.countP
        (fun r => sameOwnerKey r (ownerRefForStatus sampleStatus)) = 1) := by
  decide

/-- C1 (amended): for every Secret whose owner-reference list carries at most
one entry matching the owner candidate derived from a StatusObject, patching
yields exactly one reference for that owner, patching a second time with the
same candidate still yields exactly one, every unrelated owner reference is
preserved unchanged (in order), and the second patch leaves the Secret
untouched. -/
theorem c1_patch_idempotent (s : Secret) (so : StatusObject)
    (h : s.ownerRefs.countP
      (fun r => sameOwnerKey r (ownerRefForStatus so)) ≤ 1) :
    ((patchSecretPure s (ownerRefForStatus so)).1.ownerRefs.countP
      (fun r => sameOwnerKey r (ownerRefForStatus so)) = 1) ∧
    ((patchSecretPure (patchSecretPure s (ownerRefForStatus so)).1
        (ownerRefForStatus so)).1.ownerRefs.countP
      (fun r => sameOwnerKey r (ownerRefForStatus so)) = 1) ∧
    ((patchSecretPure s (ownerRefForStatus so)).1.ownerRefs.filter
        (fun r => !(sameOwnerKey r (ownerRefForStatus so))) =
      s.ownerRefs.filter
        (fun r => !(sameOwnerKey r (ownerRefForStatus so)))) ∧
    (patchSecretPure (patchSecretPure s (ownerRefForStatus so)).1
        (ownerRefForStatus so)).1 =
      (patchSecretPure s (ownerRefForStatus so)).1 := by
  set c := ownerRefForStatus so with hcdef
  have h1 : (patchSecretPure s c).1.ownerRefs = mergeOwnerRefs s.ownerRefs c :=
    patchSecretPure_ownerRefs s c
  have hcount :
      (mergeOwnerRefs s.ownerRefs c).countP (fun r => sameOwnerKey r c) = 1 :=
    countP_mergeOwnerRefs s.ownerRefs c h
  have hstable : patchSecretPure (patchSecretPure s c).1 c =
      ((patchSecretPure s c).1, false) := by
    apply patch_noop_of_hasOwnerRef
    rw [h1]
    exact hasOwnerRef_mergeOwnerRefs s.ownerRefs c
  refine ⟨by rw [h1]; exact hcount, ?_, ?_, by rw [hstable]⟩
  · rw [hstable]
    show (patchSecretPure s c).1.ownerRefs.countP
      (fun r => sameOwnerKey r c) = 1
    rw [h1]
    exact hcount
  · rw [h1]
    unfold mergeOwnerRefs
    by_cases hh : hasOwnerRef s.ownerRefs c = true
    · simp [hh]
    · simp [hh, List.filter_append, sameOwnerKey_refl]

theorem c1_witness :
    ((patchSecretPure (mkSecret "my-secret" "default" [] [] "Opaque")
        (ownerRefForStatus sampleStatus)).1.ownerRefs.countP
      (fun r => sameOwnerKey r (ownerRefForStatus sampleStatus)) = 1) ∧
    ((patchSecretPure
        (patchSecretPure (mkSecret "my-secret" "default" [] [] "Opaque")
          (ownerRefForStatus sampleStatus)).1
        (ownerRefForStatus sampleStatus)).1.ownerRefs.countP
      (fun r => sameOwnerKey r (ownerRefForStatus sampleStatus)) = 1) := by
  have h := c1_patch_idempotent (mkSecret "my-secret" "default" [] [] "Opaque")
    sampleStatus (by decide)
  exact ⟨h.1, h.2.1⟩

/-- C2 counterexample: a starting list that already carries two entries with
the same (apiVersion, kind, name) triple still carries them after the merge,
so the merged list is not duplicate-free. -/
theorem c2_counterexample :
    noDupOwnerKeys
      (mergeOwnerRefs
        [{ apiVersion := "v1", kind := "Pod", name := "a", uid := "u1",
           controller := false, blockOwnerDeletion := false },
         { apiVersion := "v1", kind := "Pod", name := "a", uid := "u2",
           controller := false, blockOwnerDeletion := false }]
        { apiVersion := "v1", kind := "Pod", name := "b", uid := "u3",
          controller := false, blockOwnerDeletion := false }) = false := by
  decide

/-- C2 (amended): for every starting owner-reference list that itself carries
no two entries with the same (apiVersion, kind, name) triple, the merged list
produced by the ownership patch carries no such duplicate either, and it
contains every reference that was present before the merge. -/
theorem c2_merge_preserves_invariant (refs : List OwnerReference)
    (c : OwnerReference) (h : noDupOwnerKeys refs = true) :
    noDupOwnerKeys (mergeOwnerRefs refs c) = true ∧
    ∀ r ∈ refs, r ∈ mergeOwnerRefs refs c := by
  constructor
  · unfold mergeOwnerRefs
    by_cases hcc : hasOwnerRef refs c = true
    · simpa [hcc] using h
    · have hf : hasOwnerRef refs c = false := by
        simpa using hcc
      simp only [hf, Bool.false_eq_true, if_false]
      exact noDupOwnerKeys_append_one refs c h hf
  · intro r hr
    unfold mergeOwnerRefs
    by_cases hcc : hasOwnerRef refs c = true
    · simpa [hcc] using hr
    · simp only [hcc, if_false]
      exact List.mem_append_left _ hr

theorem c2_witness :
    noDupOwnerKeys
      (mergeOwnerRefs [ownerRefForStatus sampleStatus]
        { apiVersion := "v1", kind := "Pod", name := "b", uid := "u3",
          controller := false, blockOwnerDeletion := false }) = true ∧
    ownerRefForStatus sampleStatus ∈
      mergeOwnerRefs [ownerRefForStatus sampleStatus]
        { apiVersion := "v1", kind := "Pod", name := "b", uid := "u3",
          controller := false, blockOwnerDeletion := false } := by
  have h := c2_merge_preserves_invariant [ownerRefForStatus sampleStatus]
    { apiVersion := "v1", kind := "Pod", name := "b", uid := "u3",
      controller := false, blockOwnerDeletion := false } (by decide)
  exact ⟨h.1, h.2 _ (List.mem_cons_self _ _)⟩

/-- C3: for every identity whose Secret already exists, create-or-skip returns
success and leaves the store — hence the existing Secret's data, labels and
type — unchanged, whichever existence flag is supplied; and running the
existence-check-then-create-or-skip pass twice never errors and never alters
the first pass's outcome. -/
theorem c3_create_or_skip_idempotent (store : Store) (name nsp : String)
    (dataP : List (String × List Nat)) (labels : List (String × String))
    (ty : String) :
    (∀ s, findSecret store name nsp = some s →
      ∀ b, createK8sSecret store b name nsp dataP labels ty = .ok store) ∧
    (∀ st1, reconcileCreate store name nsp dataP labels ty = .ok st1 →
      reconcileCreate st1 name nsp dataP labels ty = .ok st1) := by
  constructor
  · intro s hs b
    cases b with
    | true => simp [createK8sSecret]
    | false =>
      have hsc : storeCreate store (mkSecret name nsp dataP labels ty) =
          .error .alreadyExists := by
        unfold storeCreate
        have e1 : (mkSecret name nsp dataP labels ty).name = name := rfl
        have e2 : (mkSecret name nsp dataP labels ty).nsp = nsp := rfl
        rw [e1, e2, hs]
      simp [createK8sSecret, hsc]
  · intro st1 h1
    cases hf : findSecret store name nsp with
    | some s =>
      have hex : secretExists store name nsp = .ok true := by
        simp [secretExists, storeGet, hf, secretExistsFromGet]
      unfold reconcileCreate at h1
      rw [hex] at h1
      simp [createK8sSecret] at h1
      subst h1
      unfold reconcileCreate
      rw [hex]
      simp [createK8sSecret]
    | none =>
      have hex : secretExists store name nsp = .ok false := by
        simp [secretExists, storeGet, hf, secretExistsFromGet]
      have hsc : storeCreate store (mkSecret name nsp dataP labels ty) =
          .ok (store ++ [mkSecret name nsp dataP labels ty]) := by
        unfold storeCreate
        have e1 : (mkSecret name nsp dataP labels ty).name = name := rfl
        have e2 : (mkSecret name nsp dataP labels ty).nsp = nsp := rfl
        rw [e1, e2, hf]
      unfold reconcileCreate at h1
      rw [hex] at h1
      simp [createK8sSecret, hsc] at h1
      subst h1
      have hf2 := findSecret_append_mk store name nsp dataP labels ty hf
      have hex2 : secretExists (store ++ [mkSecret name nsp dataP labels ty])
          name nsp = .ok true := by
        simp [secretExists, storeGet, hf2, secretExistsFromGet]
      unfold reconcileCreate
      rw [hex2]
      simp [createK8sSecret]

theorem c3_witness :
    createK8sSecret sampleStore false "my-secret" "default" []
        [("environment", "test")] "Opaque" = .ok sampleStore ∧
    reconcileCreate sampleStore "my-secret" "default" []
        [("environment", "test")] "Opaque" = .ok sampleStore := by
  have h := c3_create_or_skip_idempotent sampleStore "my-secret" "default" []
    [("environment", "test")] "Opaque"
  exact ⟨h.1 _ rfl false, h.2 sampleStore rfl⟩

/-- C6: an optimistic-concurrency conflict at write time causes a retry that
re-reads and recomputes the merge on the following round; a non-conflict write
error is surfaced as fatal without retry; and the patch consumes at most
`maxPatchAttempts` rounds, surfacing a retryable conflict failure when every
round within the bound conflicts. -/
theorem c6_conflict_retry (c : OwnerReference) (refs : List OwnerReference)
    (rest rounds : List (List OwnerReference × WriteResult)) (e : KError)
    (hne : mergeOwnerRefs refs c ≠ refs) :
    patchLoop c ((refs, WriteResult.conflict) :: rest) = patchLoop c rest ∧
    patchLoop c ((refs, WriteResult.failed e) :: rest) = .error e ∧
    ((∀ p ∈ rounds, mergeOwnerRefs p.1 c ≠ p.1 ∧ p.2 = WriteResult.conflict) →
      patchSecretWithOwnerRef c rounds = .error .conflict) := by
  refine ⟨by simp [patchLoop, hne], by simp [patchLoop, hne], ?_⟩
  intro h
  unfold patchSecretWithOwnerRef
  exact patchLoop_all_conflict c _ (fun p hp => h p (List.take_subset _ _ hp))

theorem c6_witness :
    patchLoop (ownerRefForStatus sampleStatus)
        [([], WriteResult.conflict), ([], WriteResult.succeeded)] =
      patchLoop (ownerRefForStatus sampleStatus)
        [([], WriteResult.succeeded)] ∧
    patchLoop (ownerRefForStatus sampleStatus)
        [([], WriteResult.failed (KError.other "boom")),
         ([], WriteResult.succeeded)] =
      .error (KError.other "boom") ∧
    patchSecretWithOwnerRef (ownerRefForStatus sampleStatus)
        [([], WriteResult.conflict)] = .error .conflict := by
  have h := c6_conflict_retry (ownerRefForStatus sampleStatus) []
    [([], WriteResult.succeeded)] [([], WriteResult.conflict)]
    (KError.other "boom") (by decide)
  exact ⟨h.1, h.2.1, h.2.2 (by decide)⟩

end SecretsStore
